import Mathlib

/-!
# AshNarrative site application (`js/app.js`)

A shallow embedding of the escaping helpers, the markup builders and the
asynchronous page renderers of `js/app.js`, together with the properties
established about them.

JavaScript strings are modelled as lists of characters; template literals
become list concatenations of their literal pieces and their interpolated
values.
-/

namespace AshNarrative

/-! ## Strings and escaping helpers -/

/-- A JavaScript string, modelled as its sequence of characters. -/
abbrev JsString := List Char

/-- The call `str.replace(/c/g, r)` for a pattern that is the single character `c`. -/
def replaceAll (c : Char) (r : JsString) : JsString → JsString
  | [] => []
  | x :: xs => (if x = c then r else [x]) ++ replaceAll c r xs

/-- The entity `&amp;`. -/
def entAmp : JsString := ['&', 'a', 'm', 'p', ';']

/-- The entity `&lt;`. -/
def entLt : JsString := ['&', 'l', 't', ';']

/-- The entity `&gt;`. -/
def entGt : JsString := ['&', 'g', 't', ';']

/-- The entity `&quot;`. -/
def entQuot : JsString := ['&', 'q', 'u', 'o', 't', ';']

/-- Source `escapeHtml` (app.js 595-597): three chained global replacements. -/
def escapeHtml (str : JsString) : JsString :=
  replaceAll '>' entGt (replaceAll '<' entLt (replaceAll '&' entAmp str))

/-- Source `escapeAttr` (app.js 598-600): four chained global replacements. -/
def escapeAttr (str : JsString) : JsString :=
  replaceAll '>' entGt (replaceAll '<' entLt (replaceAll '"' entQuot (replaceAll '&' entAmp str)))

/-- Every `&` of `out` is the first character of one of the entities `ents`. -/
def AmpStartsEntity (ents : List JsString) (out : JsString) : Prop :=
  ∀ i : Nat, out[i]? = some '&' → ∃ e ∈ ents, e <+: out.drop i

/-! ## Data model -/

/-- An entry of the `sections` table (app.js 19-40). -/
structure SectionInfo where
  title : JsString
  desc : JsString
  icon : JsString

/-- The entry `sections['gallery']`. -/
def galleryInfo : SectionInfo :=
  { title := "Gallery".toList
    desc := "Memorable moments and images worth sharing.".toList
    icon := "[*]".toList }

/-- Source `sections` (app.js 19-40): the own properties, in insertion order. -/
def sections : List (JsString × SectionInfo) :=
  [ ("lab-notes".toList,
      { title := "Lab Notes".toList
        desc := "Electrical engineering concepts, circuit analysis, and technical deep-dives.".toList
        icon := "&gt;&gt;".toList }),
    ("projects".toList,
      { title := "Projects".toList
        desc := "Hands-on builds, schematics, and engineering experiments.".toList
        icon := "[+]".toList }),
    ("musings".toList,
      { title := "Musings".toList
        desc := "Thoughts on shows, quotes, ideas, and everything in between.".toList
        icon := "...".toList }),
    ("gallery".toList, galleryInfo) ]

/-- Property names every object literal inherits from `Object.prototype`. -/
def objectPrototypeKeys : List JsString :=
  [ "constructor".toList, "__proto__".toList, "hasOwnProperty".toList,
    "isPrototypeOf".toList, "propertyIsEnumerable".toList, "toLocaleString".toList,
    "toString".toList, "valueOf".toList, "__defineGetter__".toList,
    "__defineSetter__".toList, "__lookupGetter__".toList, "__lookupSetter__".toList ]

/-- The value of the property read `sections[key]`. -/
inductive SectionsEntry where
  /-- An own entry of the table. -/
  | own (info : SectionInfo)
  /-- A member inherited from `Object.prototype`: a truthy value with no `title`. -/
  | inherited
  /-- No such property: `undefined`. -/
  | undefined

/-- The property read `sections[key]`. -/
def sectionsGet (key : JsString) : SectionsEntry :=
  match sections.lookup key with
  | some info => SectionsEntry.own info
  | none => if key ∈ objectPrototypeKeys then SectionsEntry.inherited else SectionsEntry.undefined

/-- The interpolation of `info.title` in a template literal, `none` when reading the
property throws a `TypeError` because `info` is `undefined`. -/
def infoTitle : SectionsEntry → Option JsString
  | SectionsEntry.own info => some info.title
  | SectionsEntry.inherited => some "undefined".toList
  | SectionsEntry.undefined => none

/-- The `meta` mapping of a parsed document, restricted to the keys the application
reads; an absent key is `none`. -/
structure Meta where
  title : Option JsString := none
  date : Option JsString := none
  excerpt : Option JsString := none
  description : Option JsString := none
  tags : Option (List JsString) := none

/-- A block of a parsed document. -/
structure Block where
  type : JsString
  level : Option Nat := none
  content : JsString

/-- The record returned by `ContentParser.parseImageBlock`. -/
structure ImageSpec where
  src : JsString
  alt : JsString
  caption : Option JsString := none

/-- The object `{ slug, meta }` built by `renderSection` (app.js 365). -/
structure Post where
  slug : JsString
  meta : Meta

/-- The object `{ section, slug, meta }` built by `renderHome` (app.js 128). -/
structure HomePost where
  sectionName : JsString
  slug : JsString
  meta : Meta

/-- The expression `a || b` for an optional string `a` and a string `b`. -/
def jsOr (a : Option JsString) (b : JsString) : JsString :=
  match a with
  | some (c :: cs) => c :: cs
  | _ => b

/-- The expression ``a ? f(a) : ''`` for an optional string `a`: the empty string and an
absent value are both falsy. -/
def ifTruthy (a : Option JsString) (f : JsString → JsString) : JsString :=
  match a with
  | some (c :: cs) => f (c :: cs)
  | _ => []

/-- The expression `tags.map(t => <span class="tag">escapeHtml(t)</span>).join(sep)`. -/
def tagSpans (sep : JsString) (tags : List JsString) : JsString :=
  sep.intercalate
    (tags.map fun t => "<span class=\"tag\">".toList ++ escapeHtml t ++ "</span>".toList)

/-! ## Gallery and lightbox markup -/

/-- The opening tag of a gallery caption element. -/
def galleryCaptionOpen : JsString := "<div class=\"gallery-caption\">".toList

/-- The opening tag of a lightbox caption element. -/
def lightboxCaptionOpen : JsString := "<div class=\"lightbox-caption\">".toList

/-- One iteration of the `images.forEach` loop of `renderGallery` (app.js 518-524). -/
def galleryItem (i : Nat) (img : ImageSpec) : JsString :=
  "\n          <div class=\"gallery-item\" onclick=\"openLightbox(".toList ++ (Nat.repr i).toList ++
  ")\">\n            <img src=\"".toList ++ escapeAttr img.src ++
  "\" alt=\"".toList ++ escapeAttr img.alt ++
  "\" loading=\"lazy\">\n            ".toList ++
  ifTruthy img.caption (fun c => galleryCaptionOpen ++ escapeHtml c ++ "</div>".toList) ++
  "\n          </div>".toList

/-- The markup appended by the whole `images.forEach` loop, starting at index `i`. -/
def galleryItems (i : Nat) : List ImageSpec → JsString
  | [] => []
  | img :: rest => galleryItem i img ++ galleryItems (i + 1) rest

/-- The section header that opens the gallery markup (app.js 511-516). -/
def galleryHeader (meta : Meta) : JsString :=
  "\n        <div class=\"section-header\">\n          <h2>".toList ++ galleryInfo.icon ++
  " ".toList ++ galleryInfo.title ++
  "</h2>\n          <p>".toList ++ jsOr meta.description galleryInfo.desc ++
  "</p>\n        </div>\n        <div class=\"gallery-grid\">".toList

/-- The placeholder `renderGallery` shows when there is no image block (app.js 502-507). -/
def galleryEmpty : JsString :=
  "\n          <div class=\"section-header\">\n            <h2>".toList ++ galleryInfo.icon ++
  " ".toList ++ galleryInfo.title ++
  "</h2>\n            <p>".toList ++ galleryInfo.desc ++
  "</p>\n          </div>\n          <div class=\"empty-state\">No images yet. Add [image] blocks to content/gallery/index.txt.</div>".toList

/-- The placeholder `renderGallery` shows from its `catch` block (app.js 533-538). -/
def galleryMissing : JsString :=
  "\n        <div class=\"section-header\">\n          <h2>".toList ++ galleryInfo.icon ++
  " ".toList ++ galleryInfo.title ++
  "</h2>\n          <p>".toList ++ galleryInfo.desc ++
  "</p>\n        </div>\n        <div class=\"empty-state\">No gallery yet. Create content/gallery/index.txt to get started.</div>".toList

/-- The images `renderGallery` decodes from the blocks (app.js 497-499); the decoder
`ContentParser.parseImageBlock` is a parameter. -/
def galleryImages (parseImageBlock : JsString → ImageSpec) (blocks : List Block) :
    List ImageSpec :=
  (blocks.filter fun b => b.type = "image".toList).map fun b => parseImageBlock b.content

/-- Source `renderGallery` (app.js 488-540): the final `contentEl.innerHTML`, given the
parsed gallery document, or `none` when the resource read failed. -/
def renderGallery (parseImageBlock : JsString → ImageSpec) (doc : Option (Meta × List Block)) :
    JsString :=
  match doc with
  | none => galleryMissing
  | some (meta, blocks) =>
    match galleryImages parseImageBlock blocks with
    | [] => galleryEmpty
    | img :: rest => galleryHeader meta ++ galleryItems 0 (img :: rest) ++ "</div>".toList

/-- Source `window.openLightbox` (app.js 543-558): the `innerHTML` of the lightbox element,
or `none` when the function returns without creating one. -/
def openLightbox (images : Option (List ImageSpec)) (index : Nat) : Option JsString :=
  match images with
  | none => none
  | some imgs =>
    match imgs[index]? with
    | none => none
    | some img =>
      some ("\n      <button class=\"lightbox-close\" onclick=\"this.parentElement.remove()\">&times;</button>\n      <img src=\"".toList ++
        escapeAttr img.src ++ "\" alt=\"".toList ++ escapeAttr img.alt ++
        "\">\n      ".toList ++
        ifTruthy img.caption (fun c => lightboxCaptionOpen ++ escapeHtml c ++ "</div>".toList))

/-! ## Post cards and post header -/

/-- One iteration of the card loop of `renderSection` (app.js 387-396). -/
def postCard (sectionName : JsString) (post : Post) : JsString :=
  "\n          <div class=\"post-card\" onclick=\"location.hash=\x27".toList ++ sectionName ++
  "/".toList ++ post.slug ++
  "\x27\">\n            <div class=\"post-title\">".toList ++
  escapeHtml (jsOr post.meta.title post.slug) ++
  "</div>\n            <div class=\"post-date\">".toList ++ escapeHtml (jsOr post.meta.date []) ++
  "</div>\n            ".toList ++
  ifTruthy post.meta.excerpt
    (fun e => "<div class=\"post-excerpt\">".toList ++ escapeHtml e ++ "</div>".toList) ++
  "\n            ".toList ++
  (match post.meta.tags with
   | some tags => "<div class=\"post-tags\">".toList ++ tagSpans [] tags ++ "</div>".toList
   | none => []) ++
  "\n          </div>".toList

/-- The value of `sectionTitle` in `renderHome` (app.js 153); `none` is `undefined`. -/
def homeSectionTitle (sectionName : JsString) : Option JsString :=
  match sectionsGet sectionName with
  | SectionsEntry.own info => some info.title
  | SectionsEntry.inherited => none
  | SectionsEntry.undefined => some sectionName

/-- One iteration of the recent-posts loop of `renderHome` (app.js 151-161). -/
def homeCard (post : HomePost) : JsString :=
  "\n          <div class=\"post-card\" onclick=\"location.hash=\x27".toList ++ post.sectionName ++
  "/".toList ++ post.slug ++
  "\x27\">\n            <div class=\"post-title\">".toList ++
  escapeHtml (jsOr post.meta.title post.slug) ++
  "</div>\n            <div class=\"post-date\">".toList ++ escapeHtml (jsOr post.meta.date []) ++
  ifTruthy (homeSectionTitle post.sectionName) (fun t => " · ".toList ++ escapeHtml t) ++
  "</div>\n            ".toList ++
  ifTruthy post.meta.excerpt
    (fun e => "<div class=\"post-excerpt\">".toList ++ escapeHtml e ++ "</div>".toList) ++
  "\n            ".toList ++
  (match post.meta.tags with
   | some tags => "<div class=\"post-tags\">".toList ++ tagSpans [] tags ++ "</div>".toList
   | none => []) ++
  "\n          </div>".toList

/-- The header part of the markup of `renderPost` (app.js 458-464), from the opening of
`post-header` to its close. -/
def postHeader (slug : JsString) (meta : Meta) : JsString :=
  "<div class=\"post-header\">\n            <h1>".toList ++ escapeHtml (jsOr meta.title slug) ++
  "</h1>\n            <div class=\"post-meta\">\n              ".toList ++
  ifTruthy meta.date (fun d => "<span>".toList ++ escapeHtml d ++ "</span>".toList) ++
  "\n              ".toList ++
  (match meta.tags with
   | some tags => " · ".toList ++ tagSpans " ".toList tags
   | none => []) ++
  "\n            </div>\n          </div>".toList


/-! ## Single post -/

/-- The loading placeholder of `renderPost` (app.js 449). -/
def postLoading : JsString := "<div class=\"loading\">Loading post...</div>".toList

/-- The markup `renderPost` builds on success (app.js 455-468) for the section title
`title` and the rendered blocks `body`. -/
def postView (sectionName title slug : JsString) (meta : Meta) (body : JsString) : JsString :=
  "\n        <div class=\"post-view\">\n          <a href=\"#".toList ++ sectionName ++
  "\" class=\"back-link\">← Back to ".toList ++ title ++
  "</a>\n          ".toList ++ postHeader slug meta ++
  "\n          <div class=\"post-body\">\n            ".toList ++ body ++
  "\n          </div>\n        </div>".toList

/-- The placeholder `renderPost` builds in its `catch` block (app.js 479-483). -/
def postNotFound (sectionName title slug : JsString) : JsString :=
  "\n        <div class=\"post-view\">\n          <a href=\"#".toList ++ sectionName ++
  "\" class=\"back-link\">← Back to ".toList ++ title ++
  "</a>\n          <div class=\"empty-state\">Post not found: ".toList ++ escapeHtml slug ++
  "</div>\n        </div>".toList

/-- What an asynchronous renderer leaves behind: the final `contentEl.innerHTML` and
whether the function raised (its promise rejected). -/
structure RenderOutcome where
  display : JsString
  raised : Bool
deriving DecidableEq

/-- The `catch` block of `renderPost` (app.js 478-484), entered with `current` displayed:
interpolating `info.title` throws when `info` is `undefined`, and then nothing is written. -/
def renderPostCatch (sectionName slug : JsString) (current : JsString) : RenderOutcome :=
  match infoTitle (sectionsGet sectionName) with
  | some title => { display := postNotFound sectionName title slug, raised := false }
  | none => { display := current, raised := true }

/-- Source `renderPost` (app.js 447-485). `doc` is the parsed document, `none` when the
resource read failed; `renderBlocks` is `ContentRenderer.renderBlocks`; `postInsert` is the
effect of the passes run on the inserted markup (`activateLatex`, dependency notice). -/
def renderPost (renderBlocks : List Block → JsString) (postInsert : JsString → JsString)
    (sectionName slug : JsString) (doc : Option (Meta × List Block)) : RenderOutcome :=
  match doc with
  | none => renderPostCatch sectionName slug postLoading
  | some (meta, blocks) =>
    match infoTitle (sectionsGet sectionName) with
    | none => renderPostCatch sectionName slug postLoading
    | some title =>
      { display := postInsert (postView sectionName title slug meta (renderBlocks blocks))
        raised := false }

/-! ## Routing -/

/-- The object returned by `getRoute` (app.js 52); `slug` is `null` or a non-empty string. -/
structure Route where
  sectionName : JsString
  slug : Option JsString
  page : Int
deriving DecidableEq

/-- The renderer call `navigate` makes. -/
inductive Dispatch where
  | renderHome
  | renderGuestbook
  | renderAbout
  | renderGallery
  | renderWebring
  | renderPost (sectionName slug : JsString)
  | renderSection (sectionName : JsString) (page : Int)
deriving DecidableEq

/-- Source `navigate` (app.js 55-80): the dispatch on the route. -/
def navigate (route : Route) : Dispatch :=
  if route.sectionName = "home".toList then Dispatch.renderHome
  else if route.sectionName = "guestbook".toList then Dispatch.renderGuestbook
  else if route.sectionName = "about".toList then Dispatch.renderAbout
  else if route.sectionName = "gallery".toList then Dispatch.renderGallery
  else if route.sectionName = "webring".toList then Dispatch.renderWebring
  else
    match route.slug with
    | some (c :: cs) => Dispatch.renderPost route.sectionName (c :: cs)
    | _ =>
      match sectionsGet route.sectionName with
      | SectionsEntry.undefined => Dispatch.renderHome
      | _ => Dispatch.renderSection route.sectionName route.page

/-! ## Listing: loading the posts of a section -/

/-- One element of `posts` once settled (app.js 361-369): `{ slug, meta }`, or `null`
(here `none`) when the read or the metadata parse threw. `read` is the outcome of
`fetchContent`, `none` on failure; `parseFrontmatter` is `ContentParser.parseFrontmatter`. -/
def loadPost (parseFrontmatter : JsString → Option Meta) (slug : JsString)
    (read : Option JsString) : Option Post :=
  match read with
  | none => none
  | some raw =>
    match parseFrontmatter raw with
    | none => none
    | some meta => some { slug := slug, meta := meta }

/-- The array `posts` (app.js 361): `Promise.all` keeps the order of `slugs`. Every index
entry comes with the outcome of its own read. -/
def posts (parseFrontmatter : JsString → Option Meta)
    (entries : List (JsString × Option JsString)) : List (Option Post) :=
  entries.map fun e => loadPost parseFrontmatter e.1 e.2

/-- The array `validPosts = posts.filter(Boolean)` (app.js 371): the non-null elements. -/
def validPosts (parseFrontmatter : JsString → Option Meta)
    (entries : List (JsString × Option JsString)) : List Post :=
  (posts parseFrontmatter entries).filterMap id

/-- The aggregate in the words of the specification: the index entries whose read and
metadata parse succeeded, in index order, each with its own metadata. -/
def succeededEntries (parseFrontmatter : JsString → Option Meta) :
    List (JsString × Option JsString) → List Post
  | [] => []
  | (slug, some raw) :: rest =>
    match parseFrontmatter raw with
    | some meta => { slug := slug, meta := meta } :: succeededEntries parseFrontmatter rest
    | none => succeededEntries parseFrontmatter rest
  | (_, none) :: rest => succeededEntries parseFrontmatter rest

/-! ## Home: recent posts -/

/-- The comparator `renderHome` passes to `sort` (app.js 137-141); `localeCompare` is the
host string comparison. -/
def recentCompare (localeCompare : JsString → JsString → Int) (a b : HomePost) : Int :=
  localeCompare (jsOr b.meta.date []) (jsOr a.meta.date [])

/-- The call `arr.sort(cmp)`: a stable sort placing `a` before `b` when `cmp a b ≤ 0`. -/
def jsSort {α : Type} (cmp : α → α → Int) (arr : List α) : List α :=
  arr.insertionSort fun a b => cmp a b ≤ 0

/-- The array `recent` (app.js 137-142): sort by date descending, `slice(0, 5)`. -/
def recentPosts (localeCompare : JsString → JsString → Int) (allPosts : List HomePost) :
    List HomePost :=
  (jsSort (recentCompare localeCompare) allPosts).take 5

/-- A string comparison by code points, a possible `localeCompare`. -/
def codePointCompare (x y : JsString) : Int :=
  if x < y then -1 else if x = y then 0 else 1


/-! ## Post markup in the words of the specification -/

/-- The tag elements, each holding `esc tag` as its text. -/
def tagSpansWith (esc : JsString → JsString) (sep : JsString) (tags : List JsString) :
    JsString :=
  sep.intercalate (tags.map fun t => "<span class=\"tag\">".toList ++ esc t ++ "</span>".toList)

/-- The post card whose title, date, excerpt and tag elements hold `esc field` as their
text: title (slug when the title is absent or empty) and date elements always, the excerpt
element when the excerpt is non-empty, the tag elements when `tags` is present. -/
def postCardWith (esc : JsString → JsString) (sectionName : JsString) (post : Post) :
    JsString :=
  "\n          <div class=\"post-card\" onclick=\"location.hash=\x27".toList ++ sectionName ++
  "/".toList ++ post.slug ++
  "\x27\">\n            <div class=\"post-title\">".toList ++
  esc (if post.meta.title = none ∨ post.meta.title = some [] then post.slug
    else post.meta.title.getD []) ++
  "</div>\n            <div class=\"post-date\">".toList ++ esc (post.meta.date.getD []) ++
  "</div>\n            ".toList ++
  (if post.meta.excerpt = none ∨ post.meta.excerpt = some [] then []
    else "<div class=\"post-excerpt\">".toList ++ esc (post.meta.excerpt.getD []) ++
      "</div>".toList) ++
  "\n            ".toList ++
  (if post.meta.tags = none then []
    else "<div class=\"post-tags\">".toList ++ tagSpansWith esc [] (post.meta.tags.getD []) ++
      "</div>".toList) ++
  "\n          </div>".toList

/-- The post header whose title, date and tag elements hold `esc field` as their text:
the title element always, the date element when the date is non-empty, the tag elements
when `tags` is present. It has no excerpt element. -/
def postHeaderWith (esc : JsString → JsString) (slug : JsString) (meta : Meta) : JsString :=
  "<div class=\"post-header\">\n            <h1>".toList ++
  esc (if meta.title = none ∨ meta.title = some [] then slug else meta.title.getD []) ++
  "</h1>\n            <div class=\"post-meta\">\n              ".toList ++
  (if meta.date = none ∨ meta.date = some [] then []
    else "<span>".toList ++ esc (meta.date.getD []) ++ "</span>".toList) ++
  "\n              ".toList ++
  (if meta.tags = none then []
    else " · ".toList ++ tagSpansWith esc " ".toList (meta.tags.getD [])) ++
  "\n            </div>\n          </div>".toList

/-! ## Locating an element in markup -/

/-- Whether `p` and `t` differ at a position both have. -/
def clashB : JsString → JsString → Bool
  | a :: p, b :: t => a != b || clashB p t
  | _, _ => false

/-- Whether `p` clashes with every non-empty suffix of `t`: no occurrence of `p` can start
inside `t`, whatever follows `t`. -/
def noStartB (p : JsString) : JsString → Bool
  | [] => true
  | b :: t => clashB p (b :: t) && noStartB p t


/-! ## The application as a transition system -/

/-- What an assignment to `contentEl.innerHTML` puts on display. -/
inductive Written where
  /-- The section grid `renderHome` writes at once (app.js 112). -/
  | homeGrid
  /-- The page of `renderGuestbook`, `renderAbout` or `renderWebring`. -/
  | staticPage
  /-- A loading text (app.js 344, 449, 490). -/
  | loading
  /-- The markup or placeholder a renderer writes once its reads settled. -/
  | result
  /-- The recent-posts block `renderHome` appends (app.js 167). -/
  | recent
deriving DecidableEq

/-- A piece of displayed content, with the route whose renderer wrote it. -/
structure Fragment where
  owner : Route
  what : Written
deriving DecidableEq

/-- The renderers that await resource reads. -/
inductive Renderer where
  | home
  | post
  | sectionList
  | gallery
deriving DecidableEq

/-- A renderer suspended at an `await`: the route it was called for and the number of
reads it is waiting for. -/
structure Task where
  owner : Route
  renderer : Renderer
  reads : Nat
deriving DecidableEq

/-- The state of the page: the route of the last `navigate`, the content of `contentEl`,
and the suspended renderers with their pending reads. -/
structure AppState where
  route : Route
  display : List Fragment
  pending : List Task
deriving DecidableEq

/-- What happens next: a `hashchange` (or the initial load) runs `navigate`; a read of the
suspended renderer `i` settles while the renderer still awaits `more > 0` reads; or its last
awaited read settles and the renderer runs to its end, `writes` telling whether that path
reaches an assignment to `contentEl.innerHTML`. -/
inductive Event where
  | hashchange (r : Route)
  | readSettled (i : Nat) (more : Nat)
  | rendererResumes (i : Nat) (writes : Bool)
deriving DecidableEq

/-- The synchronous part of the renderer `navigate` calls for the route `r`: what it writes
to `contentEl.innerHTML` and the reads it starts. `renderHome` starts with the three index
reads (app.js 116-121); the other asynchronous renderers start with one read. -/
def startRender (r : Route) : List Fragment × List Task :=
  match navigate r with
  | Dispatch.renderHome =>
    ([{ owner := r, what := Written.homeGrid }], [{ owner := r, renderer := Renderer.home, reads := 3 }])
  | Dispatch.renderGuestbook => ([{ owner := r, what := Written.staticPage }], [])
  | Dispatch.renderAbout => ([{ owner := r, what := Written.staticPage }], [])
  | Dispatch.renderWebring => ([{ owner := r, what := Written.staticPage }], [])
  | Dispatch.renderGallery =>
    ([{ owner := r, what := Written.loading }], [{ owner := r, renderer := Renderer.gallery, reads := 1 }])
  | Dispatch.renderPost _ _ =>
    ([{ owner := r, what := Written.loading }], [{ owner := r, renderer := Renderer.post, reads := 1 }])
  | Dispatch.renderSection _ _ =>
    ([{ owner := r, what := Written.loading }],
      [{ owner := r, renderer := Renderer.sectionList, reads := 1 }])

/-- The end of a resumed renderer. `renderSection` and `renderGallery` assign
`contentEl.innerHTML` on every path (app.js 351, 404, 407; 502, 527, 533); `renderPost`
assigns it unless its `catch` block raises (app.js 470, 479); `renderHome` appends the
recent posts unless none was loaded (app.js 134, 167). No path looks at the current route. -/
def finishRender (t : Task) (writes : Bool) (display : List Fragment) : List Fragment :=
  match t.renderer with
  | Renderer.home => if writes then display ++ [{ owner := t.owner, what := Written.recent }] else display
  | Renderer.post => if writes then [{ owner := t.owner, what := Written.result }] else display
  | Renderer.sectionList => [{ owner := t.owner, what := Written.result }]
  | Renderer.gallery => [{ owner := t.owner, what := Written.result }]

/-- One transition of the page. -/
def step (s : AppState) : Event → AppState
  | Event.hashchange r =>
    { route := r, display := (startRender r).1, pending := s.pending ++ (startRender r).2 }
  | Event.readSettled i more =>
    match s.pending[i]? with
    | none => s
    | some t =>
      if more = 0 then s
      else { route := s.route, display := s.display,
             pending := s.pending.set i { owner := t.owner, renderer := t.renderer, reads := more } }
  | Event.rendererResumes i writes =>
    match s.pending[i]? with
    | none => s
    | some t =>
      { route := s.route, display := finishRender t writes s.display,
        pending := s.pending.eraseIdx i }

/-- The state after a sequence of events. -/
def run (s : AppState) (events : List Event) : AppState :=
  events.foldl step s

/-- The page before the first `navigate`. -/
def initialState : AppState :=
  { route := { sectionName := "home".toList, slug := none, page := 1 }, display := [], pending := [] }

/-- Every navigation of the run happens while no read is pending. -/
def calmRun (s : AppState) : List Event → Bool
  | [] => true
  | Event.hashchange r :: rest => s.pending.isEmpty && calmRun (step s (Event.hashchange r)) rest
  | e :: rest => calmRun (step s e) rest

/-- Everything on display and every suspended renderer belongs to the current route. -/
def OwnedByRoute (s : AppState) : Prop :=
  (∀ f ∈ s.display, f.owner = s.route) ∧ (∀ t ∈ s.pending, t.owner = s.route)


/-! ## Reading the route from the hash -/

/-- The white space `parseInt` skips at the start of its input (`StrWhiteSpaceChar`). -/
def isStrWhiteSpace (c : Char) : Bool :=
  decide (c.toNat ∈ [0x09, 0x0A, 0x0B, 0x0C, 0x0D, 0x20, 0xA0, 0x1680, 0x2028, 0x2029, 0x202F,
    0x205F, 0x3000, 0xFEFF]) || (decide (0x2000 ≤ c.toNat) && decide (c.toNat ≤ 0x200A))

/-- The value of a string of decimal digits, read after the value `acc`. -/
def digitsValue (acc : Nat) : JsString → Nat
  | [] => acc
  | c :: cs => digitsValue (acc * 10 + (c.toNat - '0'.toNat)) cs

/-- The call `parseInt(input, 10)`, `none` standing for `NaN`: `null` is read as the string
`null`, leading white space is skipped, a sign is taken, and the longest run of decimal
digits is the value. The value is kept exact (the host rounds beyond 2^53). -/
def parseInt (input : Option JsString) : Option Int :=
  let str := (input.getD "null".toList).dropWhile isStrWhiteSpace
  let negative := str.head? = some '-'
  let body := if str.head? = some '-' ∨ str.head? = some '+' then str.drop 1 else str
  let digits := body.takeWhile Char.isDigit
  if digits = [] then none
  else some (if negative then -(digitsValue 0 digits : Int) else (digitsValue 0 digits : Int))

/-- The expression `parseInt(..., 10) || 1`: `NaN` and `0` are falsy. -/
def pageOrOne (parsed : Option Int) : Int :=
  match parsed with
  | none => 1
  | some n => if n = 0 then 1 else n

/-- The call `new URLSearchParams(query).get(name)` on a query that has no percent-escape
and no `+`, so that no decoding applies: the value of the first pair named `name`. -/
def plainParamsGet (query name : JsString) : Option JsString :=
  ((List.splitOn '&' query).filter fun pair => pair ≠ []).findSome? fun pair =>
    if pair.takeWhile (fun c => c ≠ '=') = name
    then some ((pair.dropWhile fun c => c ≠ '=').drop 1) else none

/-- Source `getRoute` (app.js 43-53) for the value `hash` of `window.location.hash`;
`paramsGet query name` is `new URLSearchParams(query).get(name)`. -/
def getRoute (paramsGet : JsString → JsString → Option JsString) (hash : JsString) : Route :=
  let raw := if hash.drop 1 = [] then "home".toList else hash.drop 1
  let path := (List.splitOn '?' raw).headD []
  let parts := List.splitOn '/' path
  { sectionName := parts.headD []
    slug :=
      match parts[1]? with
      | some (c :: cs) => some (c :: cs)
      | _ => none
    page :=
      match (List.splitOn '?' raw)[1]? with
      | some (c :: cs) => pageOrOne (parseInt (paramsGet (c :: cs) "page".toList))
      | _ => 1 }

/-! ## Pagination -/

/-- Source `POSTS_PER_PAGE` (app.js 12). -/
def POSTS_PER_PAGE : Nat := 4

/-- Source `totalPages` (app.js 375): `Math.max(1, Math.ceil(totalPosts / POSTS_PER_PAGE))`. -/
def totalPages (totalPosts : Nat) : Nat :=
  max 1 ((totalPosts + (POSTS_PER_PAGE - 1)) / POSTS_PER_PAGE)

/-- Source `currentPage` (app.js 376): `Math.min(page, totalPages)`. -/
def currentPage (page : Int) (totalPosts : Nat) : Int :=
  min page (totalPages totalPosts : Int)

/-- Source `startIndex` (app.js 377): `(currentPage - 1) * POSTS_PER_PAGE`. -/
def startIndex (page : Int) (totalPosts : Nat) : Int :=
  (currentPage page totalPosts - 1) * (POSTS_PER_PAGE : Int)

/-- The position `Array.prototype.slice` makes of an integer argument: a negative one
counts from the end, and the result is clamped to `0 .. len`. -/
def relativeIndex (i : Int) (len : Nat) : Nat :=
  if i < 0 then ((len : Int) + i).toNat else min i.toNat len

/-- The call `arr.slice(start, stop)`. -/
def jsSlice {α : Type} (start stop : Int) (arr : List α) : List α :=
  (arr.drop (relativeIndex start arr.length)).take
    (relativeIndex stop arr.length - relativeIndex start arr.length)

/-- Source `pagePosts` (app.js 374-378): the slice `renderSection` displays for the
requested `page`. -/
def pagePosts (page : Int) (validPosts : List Post) : List Post :=
  jsSlice (startIndex page validPosts.length)
    (startIndex page validPosts.length + (POSTS_PER_PAGE : Int)) validPosts


/-! ## Lemmas on the escaping helpers -/

theorem replaceAll_append (c : Char) (r a b : JsString) :
    replaceAll c r (a ++ b) = replaceAll c r a ++ replaceAll c r b := by
  induction a with
  | nil => rfl
  | cons x xs ih => simp [replaceAll, ih]

theorem escapeHtml_append (a b : JsString) :
    escapeHtml (a ++ b) = escapeHtml a ++ escapeHtml b := by
  simp [escapeHtml, replaceAll_append]

theorem escapeAttr_append (a b : JsString) :
    escapeAttr (a ++ b) = escapeAttr a ++ escapeAttr b := by
  simp [escapeAttr, replaceAll_append]

theorem escapeHtml_cons (x : Char) (xs : JsString) :
    escapeHtml (x :: xs) = escapeHtml [x] ++ escapeHtml xs := by
  rw [← escapeHtml_append]; rfl

theorem escapeAttr_cons (x : Char) (xs : JsString) :
    escapeAttr (x :: xs) = escapeAttr [x] ++ escapeAttr xs := by
  rw [← escapeAttr_append]; rfl

theorem escapeHtml_single (x : Char) :
    escapeHtml [x] =
      if x = '&' then entAmp else if x = '<' then entLt else if x = '>' then entGt else [x] := by
  by_cases h1 : x = '&'
  · subst h1; decide
  · by_cases h2 : x = '<'
    · subst h2; decide
    · by_cases h3 : x = '>'
      · subst h3; decide
      · simp [escapeHtml, replaceAll, h1, h2, h3]

theorem escapeAttr_single (x : Char) :
    escapeAttr [x] =
      if x = '&' then entAmp else if x = '"' then entQuot
      else if x = '<' then entLt else if x = '>' then entGt else [x] := by
  by_cases h1 : x = '&'
  · subst h1; decide
  · by_cases h2 : x = '"'
    · subst h2; decide
    · by_cases h3 : x = '<'
      · subst h3; decide
      · by_cases h4 : x = '>'
        · subst h4; decide
        · simp [escapeAttr, replaceAll, h1, h2, h3, h4]

theorem ampStartsEntity_nil (ents : List JsString) : AmpStartsEntity ents [] := by
  intro i h
  simp at h

theorem ampStartsEntity_append (ents : List JsString) (chunk rest : JsString)
    (hc : AmpStartsEntity ents chunk) (hr : AmpStartsEntity ents rest) :
    AmpStartsEntity ents (chunk ++ rest) := by
  intro i h
  by_cases hi : i < chunk.length
  · rw [List.getElem?_append_left hi] at h
    obtain ⟨e, he, hpre⟩ := hc i h
    refine ⟨e, he, ?_⟩
    rw [List.drop_append_of_le_length (le_of_lt hi)]
    exact hpre.trans (List.prefix_append _ _)
  · have hle : chunk.length ≤ i := not_lt.mp hi
    rw [List.getElem?_append_right hle] at h
    obtain ⟨e, he, hpre⟩ := hr _ h
    refine ⟨e, he, ?_⟩
    have hd : List.drop i (chunk ++ rest) = List.drop (i - chunk.length) rest := by
      rw [List.drop_append_eq_append_drop, List.drop_of_length_le hle]
      rfl
    rw [hd]
    exact hpre

theorem ampStartsEntity_entity (ents : List JsString) (t : JsString) (hmem : ('&' :: t) ∈ ents)
    (ht : '&' ∉ t) : AmpStartsEntity ents ('&' :: t) := by
  intro i h
  cases i with
  | zero => exact ⟨_, hmem, by simp⟩
  | succ n =>
    exfalso
    have h2 : t[n]? = some '&' := by simpa using h
    exact ht (List.getElem?_mem h2)

theorem ampStartsEntity_single (ents : List JsString) (x : Char) (hx : x ≠ '&') :
    AmpStartsEntity ents [x] := by
  intro i h
  cases i with
  | zero =>
    exfalso
    apply hx
    simpa using h
  | succ n => simp at h

theorem escapeHtml_single_clean (x : Char) :
    '<' ∉ escapeHtml [x] ∧ '>' ∉ escapeHtml [x] ∧
      AmpStartsEntity [entAmp, entLt, entGt] (escapeHtml [x]) := by
  rw [escapeHtml_single]
  by_cases h1 : x = '&'
  · rw [if_pos h1]
    exact ⟨by decide, by decide, ampStartsEntity_entity _ _ (by decide) (by decide)⟩
  · rw [if_neg h1]
    by_cases h2 : x = '<'
    · rw [if_pos h2]
      exact ⟨by decide, by decide, ampStartsEntity_entity _ _ (by decide) (by decide)⟩
    · rw [if_neg h2]
      by_cases h3 : x = '>'
      · rw [if_pos h3]
        exact ⟨by decide, by decide, ampStartsEntity_entity _ _ (by decide) (by decide)⟩
      · rw [if_neg h3]
        refine ⟨?_, ?_, ampStartsEntity_single _ x h1⟩
        · simpa using Ne.symm h2
        · simpa using Ne.symm h3

theorem escapeAttr_single_clean (x : Char) :
    '"' ∉ escapeAttr [x] ∧ '<' ∉ escapeAttr [x] ∧ '>' ∉ escapeAttr [x] ∧
      AmpStartsEntity [entAmp, entQuot, entLt, entGt] (escapeAttr [x]) := by
  rw [escapeAttr_single]
  by_cases h1 : x = '&'
  · rw [if_pos h1]
    exact ⟨by decide, by decide, by decide,
      ampStartsEntity_entity _ _ (by decide) (by decide)⟩
  · rw [if_neg h1]
    by_cases h2 : x = '"'
    · rw [if_pos h2]
      exact ⟨by decide, by decide, by decide,
        ampStartsEntity_entity _ _ (by decide) (by decide)⟩
    · rw [if_neg h2]
      by_cases h3 : x = '<'
      · rw [if_pos h3]
        exact ⟨by decide, by decide, by decide,
          ampStartsEntity_entity _ _ (by decide) (by decide)⟩
      · rw [if_neg h3]
        by_cases h4 : x = '>'
        · rw [if_pos h4]
          exact ⟨by decide, by decide, by decide,
            ampStartsEntity_entity _ _ (by decide) (by decide)⟩
        · rw [if_neg h4]
          refine ⟨?_, ?_, ?_, ampStartsEntity_single _ x h1⟩
          · simpa using Ne.symm h2
          · simpa using Ne.symm h3
          · simpa using Ne.symm h4

theorem escapeAttr_single_eq (x : Char) :
    escapeAttr [x] = replaceAll '"' entQuot (escapeHtml [x]) := by
  rw [escapeAttr_single, escapeHtml_single]
  by_cases h1 : x = '&'
  · subst h1; decide
  · by_cases h2 : x = '"'
    · subst h2; decide
    · by_cases h3 : x = '<'
      · subst h3; decide
      · by_cases h4 : x = '>'
        · subst h4; decide
        · simp [replaceAll, h1, h2, h3, h4]

/-! ## C1, C2: the two escapers -/

/-- C1: for every string `s`, `escapeHtml s` contains no `<` and no `>`, and every `&`
in it is the first character of one of the entities `&amp;`, `&lt;`, `&gt;`. -/
theorem escapeHtml_neutralizes (s : JsString) :
    '<' ∉ escapeHtml s ∧ '>' ∉ escapeHtml s ∧
      AmpStartsEntity [entAmp, entLt, entGt] (escapeHtml s) := by
  induction s with
  | nil => exact ⟨by decide, by decide, ampStartsEntity_nil _⟩
  | cons x xs ih =>
    obtain ⟨a1, a2, a3⟩ := escapeHtml_single_clean x
    obtain ⟨b1, b2, b3⟩ := ih
    rw [escapeHtml_cons]
    refine ⟨?_, ?_, ampStartsEntity_append _ _ _ a3 b3⟩
    · simp only [List.mem_append, not_or]; exact ⟨a1, b1⟩
    · simp only [List.mem_append, not_or]; exact ⟨a2, b2⟩

/-- C2: for every string `s`, `escapeAttr s` contains no `"`, no `<` and no `>`, every
`&` in it is the first character of one of `&amp;`, `&quot;`, `&lt;`, `&gt;`, and
`escapeAttr s` is `escapeHtml s` with each `"` replaced by `&quot;`. -/
theorem escapeAttr_neutralizes (s : JsString) :
    '"' ∉ escapeAttr s ∧ '<' ∉ escapeAttr s ∧ '>' ∉ escapeAttr s ∧
      AmpStartsEntity [entAmp, entQuot, entLt, entGt] (escapeAttr s) ∧
      escapeAttr s = replaceAll '"' entQuot (escapeHtml s) := by
  induction s with
  | nil => exact ⟨by decide, by decide, by decide, ampStartsEntity_nil _, rfl⟩
  | cons x xs ih =>
    obtain ⟨a1, a2, a3, a4⟩ := escapeAttr_single_clean x
    obtain ⟨b1, b2, b3, b4, b5⟩ := ih
    rw [escapeAttr_cons]
    refine ⟨?_, ?_, ?_, ampStartsEntity_append _ _ _ a4 b4, ?_⟩
    · simp only [List.mem_append, not_or]; exact ⟨a1, b1⟩
    · simp only [List.mem_append, not_or]; exact ⟨a2, b2⟩
    · simp only [List.mem_append, not_or]; exact ⟨a3, b3⟩
    · rw [escapeHtml_cons, replaceAll_append, ← escapeAttr_single_eq, b5]

/-! ## C3: the gallery description reaches the markup unescaped -/

/-- The header of the gallery markup carries a non-empty description verbatim. -/
theorem galleryHeader_raw_description (meta : Meta) (c : Char) (cs : JsString)
    (h : meta.description = some (c :: cs)) :
    ("<p>".toList ++ (c :: cs) ++ "</p>".toList) <:+: galleryHeader meta := by
  refine ⟨"\n        <div class=\"section-header\">\n          <h2>".toList ++ galleryInfo.icon ++
    " ".toList ++ galleryInfo.title ++ "</h2>\n          ".toList,
    "\n        </div>\n        <div class=\"gallery-grid\">".toList, ?_⟩
  simp [galleryHeader, jsOr, h]

set_option maxRecDepth 100000 in
/-- C3 (failing input): for the gallery document whose `description` is `<b>` and that has
one image block, the markup of `renderGallery` contains the raw `<p><b></p>` and does not
contain `escapeHtml('<b>')`, although the image fields are escaped. -/
theorem renderGallery_description_unescaped :
    "<p><b></p>".toList <:+:
        renderGallery (fun _ => { src := "a.png".toList, alt := "x".toList })
          (some ({ description := some "<b>".toList },
            [{ type := "image".toList, content := [] }])) ∧
      ¬ (escapeHtml "<b>".toList <:+:
        renderGallery (fun _ => { src := "a.png".toList, alt := "x".toList })
          (some ({ description := some "<b>".toList },
            [{ type := "image".toList, content := [] }]))) := by
  decide

/-! ## C4: the slug reaches the `onclick` attribute unescaped -/

set_option maxRecDepth 100000 in
/-- C4 (failing input): for the index slug `a"b` the post cards of `renderSection` and of
`renderHome` carry the slug verbatim inside the double-quoted `onclick` attribute, so the
attribute value ends at the quote of the slug; no escaped form of the slug is in the
attribute. -/
theorem postCard_slug_unescaped :
    "onclick=\"location.hash=\x27musings/a\"b\x27\"".toList <:+:
        postCard "musings".toList { slug := "a\"b".toList, meta := { } } ∧
      "onclick=\"location.hash=\x27musings/a\"b\x27\"".toList <:+:
        homeCard { sectionName := "musings".toList, slug := "a\"b".toList, meta := { } } ∧
      ¬ ("musings/a&quot;b".toList <:+:
        postCard "musings".toList { slug := "a\"b".toList, meta := { } }) ∧
      ¬ ("musings/a&quot;b".toList <:+:
        homeCard { sectionName := "musings".toList, slug := "a\"b".toList, meta := { } }) := by
  decide

/-! ## C7: `renderPost` on a failed read -/

/-- For a section that is a key of `sections`, or names a member every object inherits,
a failed read leaves the not-found placeholder and nothing is raised. -/
theorem renderPost_known_section_placeholder (renderBlocks : List Block → JsString)
    (postInsert : JsString → JsString) (sectionName slug title : JsString)
    (h : infoTitle (sectionsGet sectionName) = some title) :
    renderPost renderBlocks postInsert sectionName slug none =
      { display := postNotFound sectionName title slug, raised := false } := by
  simp [renderPost, renderPostCatch, h]

/-- C7 (failing input): the route `#foo/bar` is dispatched to `renderPost('foo', 'bar')`;
when the read fails, the `catch` block raises on `info.title` and the display stays at the
loading text instead of the `Post not found` placeholder. -/
theorem renderPost_unknown_section_raises (renderBlocks : List Block → JsString)
    (postInsert : JsString → JsString) :
    navigate { sectionName := "foo".toList, slug := some "bar".toList, page := 1 } =
        Dispatch.renderPost "foo".toList "bar".toList ∧
      renderPost renderBlocks postInsert "foo".toList "bar".toList none =
        { display := postLoading, raised := true } ∧
      postLoading ≠ postNotFound "foo".toList "undefined".toList "bar".toList := by
  refine ⟨by decide, ?_, by decide⟩
  have h : infoTitle (sectionsGet "foo".toList) = none := by decide
  simp only [renderPost, renderPostCatch, h]

/-! ## C6: the listing keeps exactly the successful reads, in index order -/

theorem validPosts_nil (pf : JsString → Option Meta) : validPosts pf [] = [] := rfl

theorem validPosts_cons (pf : JsString → Option Meta) (e : JsString × Option JsString)
    (es : List (JsString × Option JsString)) :
    validPosts pf (e :: es) =
      (match loadPost pf e.1 e.2 with
       | some p => p :: validPosts pf es
       | none => validPosts pf es) := by
  cases h : loadPost pf e.1 e.2 <;> simp [validPosts, posts, List.filterMap_cons, h]

theorem validPosts_append (pf : JsString → Option Meta)
    (a b : List (JsString × Option JsString)) :
    validPosts pf (a ++ b) = validPosts pf a ++ validPosts pf b := by
  simp [validPosts, posts, List.filterMap_append]

theorem validPosts_eq_succeededEntries (pf : JsString → Option Meta)
    (entries : List (JsString × Option JsString)) :
    validPosts pf entries = succeededEntries pf entries := by
  induction entries with
  | nil => rfl
  | cons e es ih =>
    obtain ⟨slug, read⟩ := e
    rw [validPosts_cons]
    cases read with
    | none => simpa [loadPost, succeededEntries] using ih
    | some raw =>
      cases hp : pf raw with
      | none => simpa [loadPost, succeededEntries, hp] using ih
      | some m => simp [loadPost, succeededEntries, hp, ih]

theorem validPosts_slugs_sublist (pf : JsString → Option Meta)
    (entries : List (JsString × Option JsString)) :
    ((validPosts pf entries).map Post.slug).Sublist (entries.map Prod.fst) := by
  induction entries with
  | nil => exact List.Sublist.slnil
  | cons e es ih =>
    obtain ⟨slug, read⟩ := e
    rw [validPosts_cons]
    cases h : loadPost pf slug read with
    | none => exact List.Sublist.cons _ ih
    | some p =>
      have hs : p.slug = slug := by
        cases read with
        | none => simp [loadPost] at h
        | some raw =>
          cases hp : pf raw with
          | none => simp [loadPost, hp] at h
          | some m =>
            simp [loadPost, hp] at h
            rw [← h]
      simp only [List.map_cons]
      rw [hs]
      exact List.Sublist.cons₂ _ ih

theorem mem_validPosts (pf : JsString → Option Meta)
    (entries : List (JsString × Option JsString)) (p : Post) :
    p ∈ validPosts pf entries ↔
      ∃ raw, (p.slug, some raw) ∈ entries ∧ pf raw = some p.meta := by
  induction entries with
  | nil => simp [validPosts_nil]
  | cons e es ih =>
    obtain ⟨slug, read⟩ := e
    rw [validPosts_cons]
    cases read with
    | none =>
      simp only [loadPost, ih, List.mem_cons, Prod.mk.injEq]
      constructor
      · rintro ⟨raw, h1, h2⟩
        exact ⟨raw, Or.inr h1, h2⟩
      · rintro ⟨raw, h1 | h1, h2⟩
        · exact absurd h1.2 (by simp)
        · exact ⟨raw, h1, h2⟩
    | some raw0 =>
      cases hp : pf raw0 with
      | none =>
        simp only [loadPost, hp, ih, List.mem_cons, Prod.mk.injEq]
        constructor
        · rintro ⟨raw, h1, h2⟩
          exact ⟨raw, Or.inr h1, h2⟩
        · rintro ⟨raw, h1 | h1, h2⟩
          · obtain ⟨_, h3⟩ := h1
            have h4 : raw = raw0 := by simpa using h3
            rw [h4, hp] at h2
            exact absurd h2 (by simp)
          · exact ⟨raw, h1, h2⟩
      | some m =>
        simp only [loadPost, hp, ih, List.mem_cons, Prod.mk.injEq]
        constructor
        · rintro (h | ⟨raw, h1, h2⟩)
          · refine ⟨raw0, Or.inl ⟨?_, rfl⟩, ?_⟩
            · rw [h]
            · rw [h]; exact hp
          · exact ⟨raw, Or.inr h1, h2⟩
        · rintro ⟨raw, h1 | h1, h2⟩
          · left
            obtain ⟨h3, h4⟩ := h1
            have h5 : raw = raw0 := by simpa using h4
            rw [h5, hp] at h2
            cases p
            simp only [Post.mk.injEq]
            exact ⟨h3, by simpa using h2.symm⟩
          · exact Or.inr ⟨raw, h1, h2⟩

/-- C6: for every index slug list and every outcome of the per-slug reads, `validPosts`
is exactly the index entries whose read and metadata parse succeeded, in index order and
each with its own metadata; its slugs are a subsequence of the index; a failed read removes
only its own entry (the posts before and after it are kept as they are). -/
theorem validPosts_successful_subsequence (pf : JsString → Option Meta)
    (entries : List (JsString × Option JsString)) :
    validPosts pf entries = succeededEntries pf entries ∧
      ((validPosts pf entries).map Post.slug).Sublist (entries.map Prod.fst) ∧
      (∀ p : Post, p ∈ validPosts pf entries ↔
        ∃ raw, (p.slug, some raw) ∈ entries ∧ pf raw = some p.meta) ∧
      (validPosts pf entries).length =
        entries.countP (fun e => (loadPost pf e.1 e.2).isSome) ∧
      (∀ (before after : List (JsString × Option JsString)) (slug : JsString),
        validPosts pf (before ++ (slug, none) :: after) =
          validPosts pf before ++ validPosts pf after) := by
  refine ⟨validPosts_eq_succeededEntries pf entries, validPosts_slugs_sublist pf entries,
    mem_validPosts pf entries, ?_, ?_⟩
  · induction entries with
    | nil => rfl
    | cons e es ih =>
      rw [validPosts_cons, List.countP_cons]
      cases h : loadPost pf e.1 e.2 <;> simp [ih]
  · intro before after slug
    rw [validPosts_append, validPosts_cons]
    rfl

/-- The example of the specification: with the reads of the 1st, 3rd and 4th of five index
entries failing, the listing holds the 2nd and the 5th, in that order. -/
theorem validPosts_three_of_five_fail :
    (validPosts (fun raw => some { title := some raw })
        [("a".toList, none), ("b".toList, some "B".toList), ("c".toList, none),
          ("d".toList, none), ("e".toList, some "E".toList)]).map Post.slug =
      ["b".toList, "e".toList] := by
  decide

/-! ## C5: post fields are escaped exactly once -/

theorem length_le_escapeHtml (f : JsString) : f.length ≤ (escapeHtml f).length := by
  induction f with
  | nil => simp [escapeHtml, replaceAll]
  | cons x xs ih =>
    rw [escapeHtml_cons, List.length_append, escapeHtml_single]
    have h1 : 1 ≤ (if x = '&' then entAmp else if x = '<' then entLt
        else if x = '>' then entGt else [x]).length := by
      split_ifs <;> simp [entAmp, entLt, entGt]
    simp only [List.length_cons]
    omega

theorem length_lt_escapeHtml (f : JsString)
    (h : ∃ c ∈ f, c = '&' ∨ c = '<' ∨ c = '>') : f.length < (escapeHtml f).length := by
  induction f with
  | nil => simp at h
  | cons x xs ih =>
    rw [escapeHtml_cons, List.length_append, escapeHtml_single]
    simp only [List.length_cons]
    by_cases hx : x = '&' ∨ x = '<' ∨ x = '>'
    · have h1 : 2 ≤ (if x = '&' then entAmp else if x = '<' then entLt
          else if x = '>' then entGt else [x]).length := by
        rcases hx with hx | hx | hx <;> subst hx <;> decide
      have h2 := length_le_escapeHtml xs
      omega
    · have h1 : 1 ≤ (if x = '&' then entAmp else if x = '<' then entLt
          else if x = '>' then entGt else [x]).length := by
        split_ifs <;> simp [entAmp, entLt, entGt]
      have h2 : xs.length < (escapeHtml xs).length := by
        apply ih
        obtain ⟨c, hc, hs⟩ := h
        rcases List.mem_cons.mp hc with rfl | hc
        · exact absurd hs hx
        · exact ⟨c, hc, hs⟩
      omega

theorem amp_mem_escapeHtml (f : JsString)
    (h : ∃ c ∈ f, c = '&' ∨ c = '<' ∨ c = '>') : '&' ∈ escapeHtml f := by
  induction f with
  | nil => simp at h
  | cons x xs ih =>
    rw [escapeHtml_cons, List.mem_append, escapeHtml_single]
    by_cases hx : x = '&' ∨ x = '<' ∨ x = '>'
    · left
      rcases hx with hx | hx | hx <;> subst hx <;> decide
    · right
      apply ih
      obtain ⟨c, hc, hs⟩ := h
      rcases List.mem_cons.mp hc with rfl | hc
      · exact absurd hs hx
      · exact ⟨c, hc, hs⟩

theorem escapeHtml_ne_twice (f : JsString)
    (h : ∃ c ∈ f, c = '&' ∨ c = '<' ∨ c = '>') :
    escapeHtml f ≠ escapeHtml (escapeHtml f) := by
  intro heq
  have h1 : (escapeHtml f).length < (escapeHtml (escapeHtml f)).length :=
    length_lt_escapeHtml _ ⟨'&', amp_mem_escapeHtml f h, Or.inl rfl⟩
  rw [← heq] at h1
  exact lt_irrefl _ h1

theorem tagSpans_eq_with (sep : JsString) (tags : List JsString) :
    tagSpans sep tags = tagSpansWith escapeHtml sep tags := rfl

theorem postCard_eq_with (sectionName : JsString) (post : Post) :
    postCard sectionName post = postCardWith escapeHtml sectionName post := by
  obtain ⟨slug, ⟨title, date, excerpt, description, tags⟩⟩ := post
  rcases title with _ | _ | ⟨c1, cs1⟩ <;> rcases date with _ | _ | ⟨c2, cs2⟩ <;>
    rcases excerpt with _ | _ | ⟨c3, cs3⟩ <;> cases tags <;> rfl

theorem postHeader_eq_with (slug : JsString) (meta : Meta) :
    postHeader slug meta = postHeaderWith escapeHtml slug meta := by
  obtain ⟨title, date, excerpt, description, tags⟩ := meta
  rcases title with _ | _ | ⟨c1, cs1⟩ <;> rcases date with _ | _ | ⟨c2, cs2⟩ <;>
    cases tags <;> rfl

set_option maxRecDepth 100000 in
/-- C5 (counterexample): a post whose excerpt is `a<b` has no `escapeHtml('a<b')` anywhere
in the markup of `renderPost`: the post header emits no excerpt, while the card of
`renderSection` does. -/
theorem renderPost_emits_no_excerpt :
    ¬ (escapeHtml "a<b".toList <:+:
        (renderPost (fun _ => []) id "musings".toList "s".toList
          (some ({ title := some "T".toList, excerpt := some "a<b".toList }, []))).display) ∧
      escapeHtml "a<b".toList <:+:
        postCard "musings".toList
          { slug := "s".toList,
            meta := { title := some "T".toList, excerpt := some "a<b".toList } } := by
  decide

/-- C5 (amended): the card of `renderSection` emits the title (slug when the title is
absent or empty), the date, the non-empty excerpt and each tag, and the header of
`renderPost` emits the title, the non-empty date and each tag (no excerpt), each as exactly
`escapeHtml field`; and for a field containing `&`, `<` or `>` that text differs from the
twice-escaped `escapeHtml (escapeHtml field)`. -/
theorem post_fields_escaped_once (sectionName : JsString) (post : Post) (f : JsString)
    (hf : ∃ c ∈ f, c = '&' ∨ c = '<' ∨ c = '>') :
    postCard sectionName post = postCardWith escapeHtml sectionName post ∧
      postHeader post.slug post.meta = postHeaderWith escapeHtml post.slug post.meta ∧
      escapeHtml f ≠ escapeHtml (escapeHtml f) :=
  ⟨postCard_eq_with sectionName post, postHeader_eq_with post.slug post.meta,
    escapeHtml_ne_twice f hf⟩

/-- Witness for C5 (amended), at a post titled `R&D`. -/
theorem post_fields_escaped_once_witness :
    (∃ c ∈ "R&D".toList, c = '&' ∨ c = '<' ∨ c = '>') ∧
      postCard "musings".toList
          { slug := "s".toList, meta := { title := some "R&D".toList } } =
        postCardWith escapeHtml "musings".toList
          { slug := "s".toList, meta := { title := some "R&D".toList } } ∧
      postHeader "s".toList { title := some "R&D".toList } =
        postHeaderWith escapeHtml "s".toList { title := some "R&D".toList } ∧
      escapeHtml "R&D".toList ≠ escapeHtml (escapeHtml "R&D".toList) :=
  ⟨⟨'&', by decide, Or.inl rfl⟩,
    post_fields_escaped_once "musings".toList
      { slug := "s".toList, meta := { title := some "R&D".toList } } "R&D".toList
      ⟨'&', by decide, Or.inl rfl⟩⟩

/-! ## C10: caption elements -/

theorem clashB_excludes_start (p t r : JsString) (h : clashB p t = true) : ¬ p <+: t ++ r := by
  induction p generalizing t with
  | nil => simp [clashB] at h
  | cons a p ih =>
    cases t with
    | nil => simp [clashB] at h
    | cons b t =>
      intro hpre
      rw [List.cons_append, List.cons_prefix_cons] at hpre
      simp only [clashB, Bool.or_eq_true, bne_iff_ne, ne_eq] at h
      rcases h with h | h
      · exact h hpre.1
      · exact ih t h hpre.2

theorem noStartB_skip (p t r : JsString) (h : noStartB p t = true) :
    p <:+: t ++ r ↔ p <:+: r := by
  induction t with
  | nil => simp
  | cons b t ih =>
    simp only [noStartB, Bool.and_eq_true] at h
    rw [List.cons_append, List.infix_cons_iff, ih h.2]
    constructor
    · rintro (h1 | h1)
      · exact absurd h1 (clashB_excludes_start p (b :: t) r h.1)
      · exact h1
    · exact Or.inr

theorem noStartB_of_not_mem (a : Char) (p t : JsString) (h : a ∉ t) :
    noStartB (a :: p) t = true := by
  induction t with
  | nil => rfl
  | cons b t ih =>
    simp only [List.mem_cons, not_or] at h
    simp only [noStartB, clashB, Bool.and_eq_true, Bool.or_eq_true, bne_iff_ne, ne_eq]
    exact ⟨Or.inl h.1, ih h.2⟩

theorem digitChar_ne_lt (n : Nat) : Nat.digitChar n ≠ '<' := by
  by_cases h : n < 16
  · interval_cases n <;> decide
  · obtain ⟨k, rfl⟩ : ∃ k, n = k + 16 := ⟨n - 16, by omega⟩
    have hk : Nat.digitChar (k + 16) = '*' := by
      simp [Nat.digitChar]
    rw [hk]
    decide

theorem lt_not_mem_toDigitsCore (fuel n : Nat) (ds : List Char) (h : '<' ∉ ds) :
    '<' ∉ Nat.toDigitsCore 10 fuel n ds := by
  induction fuel generalizing n ds with
  | zero => simpa [Nat.toDigitsCore] using h
  | succ fuel ih =>
    have hd : '<' ∉ Nat.digitChar (n % 10) :: ds := by
      simp only [List.mem_cons, not_or]
      exact ⟨fun e => digitChar_ne_lt _ e.symm, h⟩
    simp only [Nat.toDigitsCore]
    split_ifs
    · exact hd
    · exact ih _ _ hd

theorem lt_not_mem_repr (i : Nat) : '<' ∉ (Nat.repr i).toList := by
  have h : (Nat.repr i).toList = Nat.toDigitsCore 10 (i + 1) i [] := rfl
  rw [h]
  exact lt_not_mem_toDigitsCore _ _ _ (by simp)

theorem galleryCaptionOpen_eq :
    galleryCaptionOpen = '<' :: "div class=\"gallery-caption\">".toList := by decide

theorem lightboxCaptionOpen_eq :
    lightboxCaptionOpen = '<' :: "div class=\"lightbox-caption\">".toList := by decide

theorem lt_not_mem_escapeAttr (s : JsString) : '<' ∉ escapeAttr s := by
  induction s with
  | nil => decide
  | cons x xs ih =>
    rw [escapeAttr_cons, List.mem_append, not_or]
    exact ⟨(escapeAttr_single_clean x).2.1, ih⟩

theorem noStartB_escapeAttr (p s : JsString) : noStartB ('<' :: p) (escapeAttr s) = true :=
  noStartB_of_not_mem _ _ _ (lt_not_mem_escapeAttr s)

theorem ifTruthy_eq_nil_of_not (a : Option JsString) (f : JsString → JsString)
    (h : ¬ ∃ c, a = some c ∧ c ≠ []) : ifTruthy a f = [] := by
  rcases a with _ | _ | ⟨c, cs⟩
  · rfl
  · rfl
  · exact absurd ⟨c :: cs, rfl, by simp⟩ h

set_option maxRecDepth 100000 in
theorem galleryItem_no_caption (i : Nat) (img : ImageSpec)
    (h : ¬ ∃ c, img.caption = some c ∧ c ≠ []) :
    ¬ galleryCaptionOpen <:+: galleryItem i img := by
  have e : galleryItem i img =
      "\n          <div class=\"gallery-item\" onclick=\"openLightbox(".toList ++
        ((Nat.repr i).toList ++
          (")\">\n            <img src=\"".toList ++ (escapeAttr img.src ++
            ("\" alt=\"".toList ++ (escapeAttr img.alt ++
              ("\" loading=\"lazy\">\n            ".toList ++
                ("\n          </div>".toList ++ []))))))) := by
    simp only [galleryItem, ifTruthy_eq_nil_of_not _ _ h, List.append_assoc, List.append_nil,
      List.nil_append]
  rw [e, noStartB_skip _ _ _ (by decide)]
  rw [galleryCaptionOpen_eq, noStartB_skip _ _ _ (noStartB_of_not_mem _ _ _ (lt_not_mem_repr i))]
  rw [← galleryCaptionOpen_eq, noStartB_skip _ _ _ (by decide)]
  rw [galleryCaptionOpen_eq, noStartB_skip _ _ _ (noStartB_escapeAttr _ _)]
  rw [← galleryCaptionOpen_eq, noStartB_skip _ _ _ (by decide)]
  rw [galleryCaptionOpen_eq, noStartB_skip _ _ _ (noStartB_escapeAttr _ _)]
  rw [← galleryCaptionOpen_eq, noStartB_skip _ _ _ (by decide), noStartB_skip _ _ _ (by decide)]
  decide

theorem galleryItem_caption (i : Nat) (img : ImageSpec) (c : JsString)
    (h : img.caption = some c) (hc : c ≠ []) :
    (galleryCaptionOpen ++ escapeHtml c ++ "</div>".toList) <:+: galleryItem i img := by
  cases c with
  | nil => exact absurd rfl hc
  | cons x xs =>
    refine ⟨"\n          <div class=\"gallery-item\" onclick=\"openLightbox(".toList ++
      (Nat.repr i).toList ++ ")\">\n            <img src=\"".toList ++ escapeAttr img.src ++
      "\" alt=\"".toList ++ escapeAttr img.alt ++
      "\" loading=\"lazy\">\n            ".toList, "\n          </div>".toList, ?_⟩
    simp only [galleryItem, h, ifTruthy, List.append_assoc]

set_option maxRecDepth 100000 in
theorem lightbox_no_caption (img : ImageSpec)
    (h : ¬ ∃ c, img.caption = some c ∧ c ≠ []) :
    ¬ lightboxCaptionOpen <:+:
      ("\n      <button class=\"lightbox-close\" onclick=\"this.parentElement.remove()\">&times;</button>\n      <img src=\"".toList ++
        escapeAttr img.src ++ "\" alt=\"".toList ++ escapeAttr img.alt ++
        "\">\n      ".toList ++
        ifTruthy img.caption (fun c => lightboxCaptionOpen ++ escapeHtml c ++ "</div>".toList)) := by
  rw [ifTruthy_eq_nil_of_not _ _ h]
  simp only [List.append_assoc]
  rw [noStartB_skip _ _ _ (by decide)]
  rw [lightboxCaptionOpen_eq, noStartB_skip _ _ _ (noStartB_escapeAttr _ _)]
  rw [← lightboxCaptionOpen_eq, noStartB_skip _ _ _ (by decide)]
  rw [lightboxCaptionOpen_eq, noStartB_skip _ _ _ (noStartB_escapeAttr _ _)]
  rw [← lightboxCaptionOpen_eq, noStartB_skip _ _ _ (by decide)]
  decide

theorem lightbox_caption (img : ImageSpec) (c : JsString)
    (h : img.caption = some c) (hc : c ≠ []) :
    (lightboxCaptionOpen ++ escapeHtml c ++ "</div>".toList) <:+:
      ("\n      <button class=\"lightbox-close\" onclick=\"this.parentElement.remove()\">&times;</button>\n      <img src=\"".toList ++
        escapeAttr img.src ++ "\" alt=\"".toList ++ escapeAttr img.alt ++
        "\">\n      ".toList ++
        ifTruthy img.caption (fun c => lightboxCaptionOpen ++ escapeHtml c ++ "</div>".toList)) := by
  cases c with
  | nil => exact absurd rfl hc
  | cons x xs =>
    rw [h]
    exact List.IsSuffix.isInfix (List.suffix_append _ _)

set_option maxRecDepth 100000 in
/-- C10 (counterexample): an image whose caption is present but empty gets no caption
element, neither in the gallery item nor in the lightbox. -/
theorem empty_caption_no_element :
    ({ src := "a.png".toList, alt := "A".toList, caption := some [] } : ImageSpec).caption.isSome
        = true ∧
      ¬ galleryCaptionOpen <:+:
        galleryItem 0 { src := "a.png".toList, alt := "A".toList, caption := some [] } ∧
      (openLightbox (some [{ src := "a.png".toList, alt := "A".toList, caption := some [] }]) 0).map
        (fun out => decide (lightboxCaptionOpen <:+: out)) = some false := by
  decide

/-- C10 (amended): `renderGallery` and `openLightbox` emit a caption element if and only if
the caption of the image is present and non-empty (a truthiness check); then the element
holds `escapeHtml caption`; an image with no caption or with an empty caption gets none. -/
theorem caption_element_iff_nonempty (i : Nat) (images : List ImageSpec) (index : Nat)
    (img : ImageSpec) (h : images[index]? = some img) :
    (galleryCaptionOpen <:+: galleryItem i img ↔ ∃ c, img.caption = some c ∧ c ≠ []) ∧
      (∀ c, img.caption = some c → c ≠ [] →
        (galleryCaptionOpen ++ escapeHtml c ++ "</div>".toList) <:+: galleryItem i img) ∧
      ∃ out, openLightbox (some images) index = some out ∧
        (lightboxCaptionOpen <:+: out ↔ ∃ c, img.caption = some c ∧ c ≠ []) ∧
        (∀ c, img.caption = some c → c ≠ [] →
          (lightboxCaptionOpen ++ escapeHtml c ++ "</div>".toList) <:+: out) := by
  refine ⟨⟨?_, ?_⟩, fun c hc hne => galleryItem_caption i img c hc hne, ?_⟩
  · intro hin
    by_contra hno
    exact galleryItem_no_caption i img hno hin
  · rintro ⟨c, hc, hne⟩
    exact (List.prefix_append _ _).isInfix.trans
      ((List.prefix_append _ _).isInfix.trans (galleryItem_caption i img c hc hne))
  · refine ⟨_, by simp only [openLightbox, h], ⟨?_, ?_⟩,
      fun c hc hne => lightbox_caption img c hc hne⟩
    · intro hin
      by_contra hno
      exact lightbox_no_caption img hno hin
    · rintro ⟨c, hc, hne⟩
      exact (List.prefix_append _ _).isInfix.trans
        ((List.prefix_append _ _).isInfix.trans (lightbox_caption img c hc hne))

/-- Witness for C10 (amended), at a one-image gallery with the caption `hi`. -/
theorem caption_element_iff_nonempty_witness :
    [({ src := "a.png".toList, alt := "A".toList, caption := some "hi".toList } : ImageSpec)][0]? =
        some { src := "a.png".toList, alt := "A".toList, caption := some "hi".toList } ∧
    (galleryCaptionOpen <:+:
          galleryItem 0 { src := "a.png".toList, alt := "A".toList, caption := some "hi".toList } ↔
        ∃ c, ({ src := "a.png".toList, alt := "A".toList, caption := some "hi".toList } :
          ImageSpec).caption = some c ∧ c ≠ []) ∧
      (∀ c, ({ src := "a.png".toList, alt := "A".toList, caption := some "hi".toList } :
          ImageSpec).caption = some c → c ≠ [] →
        (galleryCaptionOpen ++ escapeHtml c ++ "</div>".toList) <:+:
          galleryItem 0 { src := "a.png".toList, alt := "A".toList, caption := some "hi".toList }) ∧
      ∃ out, openLightbox
          (some [{ src := "a.png".toList, alt := "A".toList, caption := some "hi".toList }]) 0 =
            some out ∧
        (lightboxCaptionOpen <:+: out ↔
          ∃ c, ({ src := "a.png".toList, alt := "A".toList, caption := some "hi".toList } :
            ImageSpec).caption = some c ∧ c ≠ []) ∧
        (∀ c, ({ src := "a.png".toList, alt := "A".toList, caption := some "hi".toList } :
            ImageSpec).caption = some c → c ≠ [] →
          (lightboxCaptionOpen ++ escapeHtml c ++ "</div>".toList) <:+: out) :=
  ⟨rfl, caption_element_iff_nonempty 0
    [{ src := "a.png".toList, alt := "A".toList, caption := some "hi".toList }] 0
    { src := "a.png".toList, alt := "A".toList, caption := some "hi".toList } rfl⟩

/-! ## C9: the recent posts of the home page -/

theorem codePointCompare_le_iff (x y : JsString) : codePointCompare x y ≤ 0 ↔ x ≤ y := by
  unfold codePointCompare
  split_ifs with h1 h2
  · simp [le_of_lt h1]
  · simp [h2]
  · have h3 : y < x := lt_of_le_of_ne (not_lt.mp h1) (Ne.symm h2)
    simp [not_le.mpr h3]

theorem jsSort_perm {α : Type} (cmp : α → α → Int) (arr : List α) :
    (jsSort cmp arr).Perm arr :=
  List.perm_insertionSort _ arr

theorem jsSort_pairwise {α : Type} (cmp : α → α → Int)
    (htot : ∀ a b, cmp a b ≤ 0 ∨ cmp b a ≤ 0)
    (htrans : ∀ a b c, cmp a b ≤ 0 → cmp b c ≤ 0 → cmp a c ≤ 0) (arr : List α) :
    (jsSort cmp arr).Pairwise (fun a b => cmp a b ≤ 0) := by
  haveI : IsTotal α (fun a b => cmp a b ≤ 0) := ⟨htot⟩
  haveI : IsTrans α (fun a b => cmp a b ≤ 0) := ⟨htrans⟩
  exact List.sorted_insertionSort (fun a b => cmp a b ≤ 0) arr

/-- C9: for every collection `allPosts` of loaded posts, and a `localeCompare` that is a
total preorder, `recent` is the first 5 elements of a date-descending sorted permutation
of the collection (an absent date counting as the empty string): it has `min 5 n` entries,
adjacent entries have non-increasing dates, and every post left out has a date less than
or equal to that of every post kept. -/
theorem recentPosts_sorted_top5 (localeCompare : JsString → JsString → Int)
    (htot : ∀ x y, localeCompare x y ≤ 0 ∨ localeCompare y x ≤ 0)
    (htrans : ∀ x y z, localeCompare x y ≤ 0 → localeCompare y z ≤ 0 → localeCompare x z ≤ 0)
    (allPosts : List HomePost) :
    (recentPosts localeCompare allPosts).length = min 5 allPosts.length ∧
      List.Chain' (fun a b => localeCompare (jsOr b.meta.date []) (jsOr a.meta.date []) ≤ 0)
        (recentPosts localeCompare allPosts) ∧
      ∃ leftOut : List HomePost,
        (recentPosts localeCompare allPosts ++ leftOut).Perm allPosts ∧
        (recentPosts localeCompare allPosts ++ leftOut).Pairwise
          (fun a b => localeCompare (jsOr b.meta.date []) (jsOr a.meta.date []) ≤ 0) ∧
        ∀ kept ∈ recentPosts localeCompare allPosts, ∀ out ∈ leftOut,
          localeCompare (jsOr out.meta.date []) (jsOr kept.meta.date []) ≤ 0 := by
  have hsorted : (jsSort (recentCompare localeCompare) allPosts).Pairwise
      (fun a b => localeCompare (jsOr b.meta.date []) (jsOr a.meta.date []) ≤ 0) :=
    jsSort_pairwise (recentCompare localeCompare) (fun a b => htot _ _)
      (fun a b c hab hbc => htrans _ _ _ hbc hab) allPosts
  have hsplit : recentPosts localeCompare allPosts ++
      (jsSort (recentCompare localeCompare) allPosts).drop 5 =
        jsSort (recentCompare localeCompare) allPosts := List.take_append_drop 5 _
  refine ⟨?_, ?_, (jsSort (recentCompare localeCompare) allPosts).drop 5, ?_, ?_, ?_⟩
  · simp only [recentPosts, List.length_take]
    rw [(jsSort_perm _ allPosts).length_eq]
  · exact (hsorted.sublist (List.take_sublist 5 _)).chain'
  · rw [hsplit]
    exact jsSort_perm _ allPosts
  · rw [hsplit]
    exact hsorted
  · intro kept hk out ho
    rw [← hsplit] at hsorted
    exact (List.pairwise_append.mp hsorted).2.2 kept hk out ho

/-- Witness for C9, with the code-point comparison and six posts. -/
theorem recentPosts_sorted_top5_witness :
    (∀ x y, codePointCompare x y ≤ 0 ∨ codePointCompare y x ≤ 0) ∧
      (∀ x y z, codePointCompare x y ≤ 0 → codePointCompare y z ≤ 0 →
        codePointCompare x z ≤ 0) ∧
      (recentPosts codePointCompare
          [ { sectionName := "lab-notes".toList, slug := "a".toList,
              meta := { date := some "2024-01-05".toList } },
            { sectionName := "lab-notes".toList, slug := "b".toList, meta := { } },
            { sectionName := "projects".toList, slug := "c".toList,
              meta := { date := some "2024-03-01".toList } },
            { sectionName := "projects".toList, slug := "d".toList,
              meta := { date := some "2023-12-31".toList } },
            { sectionName := "musings".toList, slug := "e".toList,
              meta := { date := some "2024-02-10".toList } },
            { sectionName := "musings".toList, slug := "f".toList,
              meta := { date := some "2024-01-05".toList } } ]).length = min 5 6 :=
  ⟨fun x y => by
      rw [codePointCompare_le_iff, codePointCompare_le_iff]
      exact le_total x y,
    fun x y z => by
      rw [codePointCompare_le_iff, codePointCompare_le_iff, codePointCompare_le_iff]
      exact le_trans,
    (recentPosts_sorted_top5 codePointCompare
      (fun x y => by
        rw [codePointCompare_le_iff, codePointCompare_le_iff]
        exact le_total x y)
      (fun x y z => by
        rw [codePointCompare_le_iff, codePointCompare_le_iff, codePointCompare_le_iff]
        exact le_trans)
      _).1⟩

/-- The six posts of the witness: the undated post is the one left out, and the two posts
of equal date keep their order of arrival. -/
theorem recentPosts_example :
    (recentPosts codePointCompare
        [ { sectionName := "lab-notes".toList, slug := "a".toList,
            meta := { date := some "2024-01-05".toList } },
          { sectionName := "lab-notes".toList, slug := "b".toList, meta := { } },
          { sectionName := "projects".toList, slug := "c".toList,
            meta := { date := some "2024-03-01".toList } },
          { sectionName := "projects".toList, slug := "d".toList,
            meta := { date := some "2023-12-31".toList } },
          { sectionName := "musings".toList, slug := "e".toList,
            meta := { date := some "2024-02-10".toList } },
          { sectionName := "musings".toList, slug := "f".toList,
            meta := { date := some "2024-01-05".toList } } ]).map HomePost.slug =
      ["c".toList, "e".toList, "a".toList, "f".toList, "d".toList] := by
  decide

/-! ## C8: late results -/

theorem startRender_owner (r : Route) :
    (∀ f ∈ (startRender r).1, f.owner = r) ∧ (∀ t ∈ (startRender r).2, t.owner = r) := by
  unfold startRender
  cases navigate r <;> simp

theorem finishRender_owner (t : Task) (writes : Bool) (display : List Fragment) (r : Route)
    (ht : t.owner = r) (hd : ∀ f ∈ display, f.owner = r) :
    ∀ f ∈ finishRender t writes display, f.owner = r := by
  unfold finishRender
  cases t.renderer <;> cases writes <;> simp <;> first | exact hd | exact ht | skip
  intro f hf
  rcases hf with hf | hf
  · exact hd f hf
  · rw [hf]; exact ht

theorem ownedByRoute_step (s : AppState) (e : Event) (h : OwnedByRoute s)
    (hcalm : ∀ r, e = Event.hashchange r → s.pending = []) : OwnedByRoute (step s e) := by
  obtain ⟨hd, hp⟩ := h
  cases e with
  | hashchange r =>
    have hnil := hcalm r rfl
    obtain ⟨h1, h2⟩ := startRender_owner r
    refine ⟨h1, ?_⟩
    intro t ht
    simp only [step, hnil, List.nil_append] at ht
    exact h2 t ht
  | readSettled i more =>
    simp only [step]
    cases hi : s.pending[i]? with
    | none => exact ⟨hd, hp⟩
    | some t =>
      by_cases hm : more = 0
      · simp only [hm, if_true]; exact ⟨hd, hp⟩
      · simp only [hm, if_false]
        refine ⟨hd, ?_⟩
        intro t2 ht2
        rcases List.mem_or_eq_of_mem_set ht2 with h3 | h3
        · exact hp t2 h3
        · rw [h3]
          exact hp t (List.getElem?_mem hi)
  | rendererResumes i writes =>
    simp only [step]
    cases hi : s.pending[i]? with
    | none => exact ⟨hd, hp⟩
    | some t =>
      refine ⟨finishRender_owner t writes s.display s.route (hp t (List.getElem?_mem hi)) hd, ?_⟩
      intro t2 ht2
      exact hp t2 ((List.eraseIdx_sublist _ _).subset ht2)

theorem ownedByRoute_run (events : List Event) (s : AppState) (h : OwnedByRoute s)
    (hcalm : calmRun s events = true) : OwnedByRoute (run s events) := by
  induction events generalizing s with
  | nil => exact h
  | cons e rest ih =>
    have hstep : OwnedByRoute (step s e) := by
      apply ownedByRoute_step s e h
      intro r hr
      subst hr
      simp only [calmRun, Bool.and_eq_true, List.isEmpty_iff] at hcalm
      exact hcalm.1
    have hrest : calmRun (step s e) rest = true := by
      cases e with
      | hashchange r =>
        simp only [calmRun, Bool.and_eq_true] at hcalm
        exact hcalm.2
      | readSettled i more => simpa only [calmRun] using hcalm
      | rendererResumes i writes => simpa only [calmRun] using hcalm
    exact ih (step s e) hstep hrest

/-- C8 (counterexample): the read of the post `#musings/a` settles after navigation to
`#about`; no read is pending any more, the route is `about`, and the display holds the
result written for `#musings/a`. Likewise the recent posts of the home page are appended to
the `about` page. -/
theorem late_result_overwrites_display :
    run initialState
        [ Event.hashchange { sectionName := "musings".toList, slug := some "a".toList, page := 1 },
          Event.hashchange { sectionName := "about".toList, slug := none, page := 1 },
          Event.rendererResumes 0 true ] =
      { route := { sectionName := "about".toList, slug := none, page := 1 },
        display := [{ owner := { sectionName := "musings".toList, slug := some "a".toList, page := 1 },
                      what := Written.result }],
        pending := [] } ∧
    run initialState
        [ Event.hashchange { sectionName := "home".toList, slug := none, page := 1 },
          Event.hashchange { sectionName := "about".toList, slug := none, page := 1 },
          Event.rendererResumes 0 true ] =
      { route := { sectionName := "about".toList, slug := none, page := 1 },
        display := [{ owner := { sectionName := "about".toList, slug := none, page := 1 },
                      what := Written.staticPage },
                    { owner := { sectionName := "home".toList, slug := none, page := 1 },
                      what := Written.recent }],
        pending := [] } := by
  decide

/-- C8 (amended): in every run in which each navigation happens while no read is pending,
all displayed content and all suspended renderers belong to the current route; in
particular, whenever no read is pending the displayed content belongs to the current
route. -/
theorem calm_run_display_owned (events : List Event)
    (hcalm : calmRun initialState events = true) :
    (∀ f ∈ (run initialState events).display, f.owner = (run initialState events).route) ∧
      (∀ t ∈ (run initialState events).pending, t.owner = (run initialState events).route) :=
  ownedByRoute_run events initialState ⟨by simp [initialState], by simp [initialState]⟩ hcalm

/-- Witness for C8 (amended): a post is opened, its read settles, then the `about` page
is opened. -/
theorem calm_run_display_owned_witness :
    calmRun initialState
        [ Event.hashchange { sectionName := "musings".toList, slug := some "a".toList, page := 1 },
          Event.rendererResumes 0 true,
          Event.hashchange { sectionName := "about".toList, slug := none, page := 1 } ] = true ∧
      ((∀ f ∈ (run initialState
          [ Event.hashchange { sectionName := "musings".toList, slug := some "a".toList, page := 1 },
            Event.rendererResumes 0 true,
            Event.hashchange { sectionName := "about".toList, slug := none, page := 1 } ]).display,
          f.owner = (run initialState
          [ Event.hashchange { sectionName := "musings".toList, slug := some "a".toList, page := 1 },
            Event.rendererResumes 0 true,
            Event.hashchange { sectionName := "about".toList, slug := none, page := 1 } ]).route) ∧
        (∀ t ∈ (run initialState
          [ Event.hashchange { sectionName := "musings".toList, slug := some "a".toList, page := 1 },
            Event.rendererResumes 0 true,
            Event.hashchange { sectionName := "about".toList, slug := none, page := 1 } ]).pending,
          t.owner = (run initialState
          [ Event.hashchange { sectionName := "musings".toList, slug := some "a".toList, page := 1 },
            Event.rendererResumes 0 true,
            Event.hashchange { sectionName := "about".toList, slug := none, page := 1 } ]).route)) :=
  ⟨by decide, calm_run_display_owned _ (by decide)⟩

/-! ## C11, C12: pagination -/

theorem relativeIndex_natCast (m len : Nat) : relativeIndex (m : Int) len = min m len := by
  have h : ¬ ((m : Int) < 0) := by omega
  simp [relativeIndex, h]

theorem jsSlice_natCast {α : Type} (a b : Nat) (arr : List α) :
    jsSlice (a : Int) (b : Int) arr =
      (arr.drop (min a arr.length)).take (min b arr.length - min a arr.length) := by
  simp only [jsSlice, relativeIndex_natCast]

theorem take_drop_window {α : Type} (a w : Nat) (arr : List α) :
    (arr.drop (min a arr.length)).take (min (a + w) arr.length - min a arr.length) =
      (arr.drop a).take w := by
  by_cases h : arr.length ≤ a
  · rw [List.drop_eq_nil_of_le h, Nat.min_eq_right h, List.drop_eq_nil_of_le (le_refl _)]
    simp
  · have ha : a < arr.length := not_le.mp h
    rw [Nat.min_eq_left (le_of_lt ha)]
    by_cases h2 : a + w ≤ arr.length
    · rw [Nat.min_eq_left h2, Nat.add_sub_cancel_left]
    · have h3 : arr.length ≤ a + w := le_of_lt (not_le.mp h2)
      rw [Nat.min_eq_right h3]
      have hlen : (arr.drop a).length = arr.length - a := List.length_drop a arr
      rw [List.take_of_length_le (by omega), List.take_of_length_le (by omega)]

theorem totalPages_pos (n : Nat) : 1 ≤ totalPages n := by
  unfold totalPages
  exact le_max_left _ _

theorem totalPages_covers (n : Nat) : n ≤ POSTS_PER_PAGE * totalPages n := by
  unfold totalPages POSTS_PER_PAGE
  omega

theorem totalPages_tight (n k : Nat) (h : k + 1 < totalPages n) :
    POSTS_PER_PAGE * (k + 1) < n := by
  unfold totalPages POSTS_PER_PAGE at *
  omega

theorem pagePosts_of_le (k : Nat) (validPosts : List Post)
    (hk : k < totalPages validPosts.length) :
    pagePosts ((k : Int) + 1) validPosts =
      (validPosts.drop (POSTS_PER_PAGE * k)).take POSTS_PER_PAGE := by
  have hcp : currentPage ((k : Int) + 1) validPosts.length = (k : Int) + 1 := by
    unfold currentPage
    apply min_eq_left
    omega
  have hs : startIndex ((k : Int) + 1) validPosts.length = ((POSTS_PER_PAGE * k : Nat) : Int) := by
    unfold startIndex
    rw [hcp]
    push_cast
    ring
  have he : ((POSTS_PER_PAGE * k : Nat) : Int) + (POSTS_PER_PAGE : Int) =
      ((POSTS_PER_PAGE * k + POSTS_PER_PAGE : Nat) : Int) := by
    push_cast
    ring
  unfold pagePosts
  rw [hs, he, jsSlice_natCast, take_drop_window]

theorem pagePosts_of_gt (page : Int) (validPosts : List Post)
    (h : (totalPages validPosts.length : Int) < page) :
    pagePosts page validPosts = pagePosts (totalPages validPosts.length : Int) validPosts := by
  have h1 : currentPage page validPosts.length =
      currentPage (totalPages validPosts.length : Int) validPosts.length := by
    unfold currentPage
    rw [min_eq_right (le_of_lt h), min_self]
  unfold pagePosts startIndex
  rw [h1]

theorem windows_flatten {α : Type} (w m : Nat) (arr : List α) (h : arr.length ≤ w * m) :
    ((List.range m).map fun k => (arr.drop (w * k)).take w).flatten = arr := by
  induction m generalizing arr with
  | zero =>
    have h0 : arr = [] := List.eq_nil_of_length_eq_zero (by omega)
    simp [h0]
  | succ m ih =>
    rw [List.range_succ_eq_map, List.map_cons, List.flatten_cons, List.map_map]
    have hfun : ((fun k => (arr.drop (w * k)).take w) ∘ Nat.succ) =
        fun k => ((arr.drop w).drop (w * k)).take w := by
      funext k
      simp only [Function.comp, List.drop_drop, Nat.succ_eq_add_one, Nat.mul_add, Nat.mul_one,
        Nat.add_comm]
    rw [hfun, ih (arr.drop w) (by rw [List.length_drop]; rw [Nat.mul_succ] at h; omega)]
    simp

/-- For a requested page of at least 1 and a non-empty list, the current page lies in
`1 .. totalPages`, and the slice displayed is the non-empty window of at most four posts
that starts at index `(currentPage - 1) * 4`. -/
theorem pagePosts_of_pos (page : Int) (validPosts : List Post) (hp : 1 ≤ page)
    (hne : validPosts ≠ []) :
    1 ≤ currentPage page validPosts.length ∧
      currentPage page validPosts.length ≤ (totalPages validPosts.length : Int) ∧
      pagePosts page validPosts ≠ [] ∧
      pagePosts page validPosts =
        (validPosts.drop (startIndex page validPosts.length).toNat).take POSTS_PER_PAGE ∧
      (pagePosts page validPosts).head? =
        validPosts[(startIndex page validPosts.length).toNat]? := by
  have hT := totalPages_pos validPosts.length
  have hcp1 : 1 ≤ currentPage page validPosts.length := by
    unfold currentPage
    exact le_min hp (by omega)
  have hcp2 : currentPage page validPosts.length ≤ (totalPages validPosts.length : Int) := by
    unfold currentPage
    exact min_le_right _ _
  obtain ⟨k, hk⟩ : ∃ k : Nat, currentPage page validPosts.length = (k : Int) + 1 :=
    ⟨(currentPage page validPosts.length - 1).toNat, by omega⟩
  have hkT : k < totalPages validPosts.length := by omega
  have hsame : pagePosts page validPosts = pagePosts ((k : Int) + 1) validPosts := by
    have h1 : currentPage ((k : Int) + 1) validPosts.length =
        currentPage page validPosts.length := by
      rw [hk]
      unfold currentPage
      apply min_eq_left
      omega
    unfold pagePosts startIndex
    rw [h1]
  have hstart : (startIndex page validPosts.length).toNat = POSTS_PER_PAGE * k := by
    unfold startIndex
    rw [hk]
    unfold POSTS_PER_PAGE
    omega
  have hlen : 0 < validPosts.length := List.length_pos.mpr hne
  have hin : POSTS_PER_PAGE * k < validPosts.length := by
    cases k with
    | zero => simpa using hlen
    | succ j => exact totalPages_tight _ j hkT
  have hwin : pagePosts page validPosts =
      (validPosts.drop (POSTS_PER_PAGE * k)).take POSTS_PER_PAGE := by
    rw [hsame, pagePosts_of_le k validPosts hkT]
  refine ⟨hcp1, hcp2, ?_, ?_, ?_⟩
  · rw [hwin]
    intro hnil
    have hl : ((validPosts.drop (POSTS_PER_PAGE * k)).take POSTS_PER_PAGE).length = 0 := by
      rw [hnil]; rfl
    rw [List.length_take, List.length_drop] at hl
    unfold POSTS_PER_PAGE at hl hin
    omega
  · rw [hwin, hstart]
  · rw [hwin, hstart, List.head?_take, if_neg (by decide), List.head?_drop]

set_option maxRecDepth 100000 in
/-- C11 (failing input): the hash `#lab-notes?page=-1` gives the route page `-1`, which
`navigate` passes to `renderSection`; with three valid posts `currentPage` is `-1`,
`startIndex` is `-8`, and the slice displayed is empty. -/
theorem negative_page_empty_slice :
    getRoute plainParamsGet "#lab-notes?page=-1".toList =
        { sectionName := "lab-notes".toList, slug := none, page := -1 } ∧
      navigate { sectionName := "lab-notes".toList, slug := none, page := -1 } =
        Dispatch.renderSection "lab-notes".toList (-1) ∧
      totalPages 3 = 1 ∧ currentPage (-1) 3 = -1 ∧ startIndex (-1) 3 = -8 ∧
      (pagePosts (-1)
        [ { slug := "a".toList, meta := { } }, { slug := "b".toList, meta := { } },
          { slug := "c".toList, meta := { } } ]).map Post.slug = [] := by
  decide

/-- C12: for every list of valid posts, the slices displayed for the requested pages
`1 .. totalPages` hold at most `POSTS_PER_PAGE = 4` posts each, exactly 4 on every page
before the last, and concatenated in page order they are the whole list; a requested page
beyond `totalPages` displays the slice of page `totalPages`. -/
theorem pages_partition_posts (validPosts : List Post) :
    (∀ k : Nat, k < totalPages validPosts.length →
        (pagePosts ((k : Int) + 1) validPosts).length ≤ POSTS_PER_PAGE) ∧
      (∀ k : Nat, k + 1 < totalPages validPosts.length →
        (pagePosts ((k : Int) + 1) validPosts).length = POSTS_PER_PAGE) ∧
      ((List.range (totalPages validPosts.length)).map
        fun k : Nat => pagePosts ((k : Int) + 1) validPosts).flatten = validPosts ∧
      (∀ page : Int, (totalPages validPosts.length : Int) < page →
        pagePosts page validPosts =
          pagePosts (totalPages validPosts.length : Int) validPosts) := by
  refine ⟨?_, ?_, ?_, fun page h => pagePosts_of_gt page validPosts h⟩
  · intro k hk
    rw [pagePosts_of_le k validPosts hk, List.length_take]
    exact min_le_left _ _
  · intro k hk
    have hk2 : k < totalPages validPosts.length := by omega
    have ht := totalPages_tight _ k hk
    rw [pagePosts_of_le k validPosts hk2, List.length_take, List.length_drop]
    unfold POSTS_PER_PAGE at ht ⊢
    omega
  · have hmap : ((List.range (totalPages validPosts.length)).map
        fun k : Nat => pagePosts ((k : Int) + 1) validPosts) =
        (List.range (totalPages validPosts.length)).map
          fun k => (validPosts.drop (POSTS_PER_PAGE * k)).take POSTS_PER_PAGE := by
      apply List.map_congr_left
      intro k hk
      exact pagePosts_of_le k validPosts (List.mem_range.mp hk)
    rw [hmap]
    exact windows_flatten _ _ _ (totalPages_covers _)

set_option maxRecDepth 100000 in
/-- Witness for C12, at a list of six posts: page 1 holds four posts, pages 1 and 2 hold at
most four, and page 5 shows the slice of page 2. -/
theorem pages_partition_posts_witness :
    (0 < totalPages 6 ∧ 0 + 1 < totalPages 6 ∧ ((totalPages 6 : Nat) : Int) < 5) ∧
      (pagePosts (((0 : Nat) : Int) + 1)
        [ { slug := "a".toList, meta := { } }, { slug := "b".toList, meta := { } },
          { slug := "c".toList, meta := { } }, { slug := "d".toList, meta := { } },
          { slug := "e".toList, meta := { } }, { slug := "f".toList, meta := { } } ]).length
        = POSTS_PER_PAGE ∧
      pagePosts 5
        [ { slug := "a".toList, meta := { } }, { slug := "b".toList, meta := { } },
          { slug := "c".toList, meta := { } }, { slug := "d".toList, meta := { } },
          { slug := "e".toList, meta := { } }, { slug := "f".toList, meta := { } } ] =
      pagePosts ((totalPages 6 : Nat) : Int)
        [ { slug := "a".toList, meta := { } }, { slug := "b".toList, meta := { } },
          { slug := "c".toList, meta := { } }, { slug := "d".toList, meta := { } },
          { slug := "e".toList, meta := { } }, { slug := "f".toList, meta := { } } ] :=
  ⟨by decide,
    (pages_partition_posts
      [ { slug := "a".toList, meta := { } }, { slug := "b".toList, meta := { } },
        { slug := "c".toList, meta := { } }, { slug := "d".toList, meta := { } },
        { slug := "e".toList, meta := { } }, { slug := "f".toList, meta := { } } ]).2.1 0
      (by decide),
    (pages_partition_posts
      [ { slug := "a".toList, meta := { } }, { slug := "b".toList, meta := { } },
        { slug := "c".toList, meta := { } }, { slug := "d".toList, meta := { } },
        { slug := "e".toList, meta := { } }, { slug := "f".toList, meta := { } } ]).2.2.2 5
      (by decide)⟩

end AshNarrative
